import Mathlib

/-!
Verification development for the gomcpgo/mcp repository: a Go framework for
Model Context Protocol (MCP) servers over JSON-RPC 2.0, together with an
asynchronous operation executor.

The development shallowly embeds the relevant Go code:

* `pkg/protocol/types.go` — wire-level value types (`Request`, `Response`,
  capability payloads, method-name and error-code constants).
* the current `server.handleRequest` (the revision that accepts both
  `initialized` spellings and answers list methods with empty lists when no
  handler is registered) — embedded as a pure function from a request and a
  handler registry to the list of responses sent.
* `pkg/transport/stdio.go` — `Stop`/`Send` as a state machine over the
  closed flag and channel-close counters, and `readLoop` as a function from
  a stream of decode outcomes to the events emitted.
* `pkg/async` (`executor.go`, `registry.go`, `types.go`, `utils.go`) —
  operation records, the `Execute`/`Continue`/`Cancel` operations with the
  select races made explicit parameters, the sweeper `cleanupExpired`, and
  `generateID` with Go string-slicing partiality made explicit.

Go maps are embedded as functions `String → Option Operation`; wall-clock
times and durations are integers; the nondeterministic outcome of each
`select` is an explicit parameter of the embedded function.
-/

deriving instance DecidableEq for Except

namespace Mcp

/-- JSON-RPC request ids: Go unmarshals the `id` field into `interface{}`,
so a missing id and an explicit `null` id both decode to `nil`. -/
inductive ReqId where
  | null
  | str (s : String)
  | num (n : Int)
deriving DecidableEq, Repr

/-- JSON-RPC error payload (protocol.Error). -/
structure ErrorPayload where
  code : Int
  message : String
deriving DecidableEq, Repr

/-- Stand-in for Go `interface{}` result values carried by operations. -/
inductive GoValue where
  | nilv
  | str (s : String)
  | int (n : Int)
deriving DecidableEq, Repr

/-- protocol.ServerInfo. -/
structure ServerInfo where
  name : String
  version : String
deriving DecidableEq, Repr

/-- protocol.Capabilities: the Go struct holds optional pointers to empty
info structs; presence of each pointer is what matters on the wire. -/
structure Capabilities where
  tools : Bool
  resources : Bool
  prompts : Bool
deriving DecidableEq, Repr

/-- protocol.InitializeRequest (an empty, extensible struct in Go). -/
structure InitializeRequest where
deriving DecidableEq, Repr

/-- protocol.InitializeResponse. -/
structure InitializeResponse where
  protocolVersion : String
  serverInfo : ServerInfo
  capabilities : Capabilities
deriving DecidableEq, Repr

/-- protocol.Tool. -/
structure Tool where
  name : String
  description : String
  inputSchema : String
deriving DecidableEq, Repr

/-- protocol.ListToolsResponse. -/
structure ListToolsResponse where
  tools : List Tool
deriving DecidableEq, Repr

/-- protocol.CallToolRequest. -/
structure CallToolRequest where
  name : String
  arguments : List (String × GoValue)
deriving DecidableEq, Repr

/-- protocol.ToolContent. -/
structure ToolContent where
  typ : String
  text : String
deriving DecidableEq, Repr

/-- protocol.CallToolResponse. -/
structure CallToolResponse where
  content : List ToolContent
  isError : Bool
deriving DecidableEq, Repr

/-- protocol.Resource. -/
structure Resource where
  uri : String
  name : String
  description : String
  mimeType : String
deriving DecidableEq, Repr

/-- protocol.ListResourcesResponse. -/
structure ListResourcesResponse where
  resources : List Resource
deriving DecidableEq, Repr

/-- protocol.ReadResourceRequest. -/
structure ReadResourceRequest where
  uri : String
deriving DecidableEq, Repr

/-- protocol.ResourceContent. -/
structure ResourceContent where
  uri : String
  mimeType : String
  text : String
  blob : String
deriving DecidableEq, Repr

/-- protocol.ReadResourceResponse. -/
structure ReadResourceResponse where
  contents : List ResourceContent
deriving DecidableEq, Repr

/-- protocol.PromptArgument. -/
structure PromptArgument where
  name : String
  description : String
  required : Bool
deriving DecidableEq, Repr

/-- protocol.Prompt. -/
structure Prompt where
  name : String
  description : String
  arguments : List PromptArgument
deriving DecidableEq, Repr

/-- protocol.ListPromptsResponse. -/
structure ListPromptsResponse where
  prompts : List Prompt
deriving DecidableEq, Repr

/-- protocol.GetPromptRequest. -/
structure GetPromptRequest where
  name : String
  arguments : List (String × GoValue)
deriving DecidableEq, Repr

/-- protocol.MessageContent. -/
structure MessageContent where
  typ : String
  text : String
deriving DecidableEq, Repr

/-- protocol.Message. -/
structure PromptMessage where
  role : String
  content : MessageContent
deriving DecidableEq, Repr

/-- protocol.GetPromptResponse. -/
structure GetPromptResponse where
  messages : List PromptMessage
deriving DecidableEq, Repr

/-- The dynamic `result` value of a response: Go stores it as `interface{}`;
each dispatch branch places one of the concrete response payloads there. -/
inductive ResultVal where
  | initializeR (r : InitializeResponse)
  | toolsListR (r : ListToolsResponse)
  | toolsCallR (r : CallToolResponse)
  | resourcesListR (r : ListResourcesResponse)
  | resourcesReadR (r : ReadResourceResponse)
  | promptsListR (r : ListPromptsResponse)
  | promptsGetR (r : GetPromptResponse)
deriving DecidableEq, Repr

/-- protocol.Response (the `jsonrpc` field is always "2.0" and omitted). -/
structure Response where
  id : ReqId
  result : Option ResultVal
  error : Option ErrorPayload
deriving DecidableEq, Repr

/-- Decoding oracle for a request's raw `params` bytes: each field is the
result of `json.Unmarshal` of those bytes into the corresponding Go type
(`none` models an unmarshal error). -/
structure ParamsDecode where
  asInitialize : Option InitializeRequest
  asCallTool : Option CallToolRequest
  asReadResource : Option ReadResourceRequest
  asGetPrompt : Option GetPromptRequest
deriving DecidableEq, Repr

/-- protocol.Request after JSON decoding. -/
structure Request where
  jsonrpc : String
  id : ReqId
  method : String
  params : ParamsDecode
deriving DecidableEq, Repr

/-- protocol.Version. -/
def protocolVersionConst : String := "2024-11-05"

/-- protocol.MethodInitialize. -/
def methodInitialize : String := "initialize"

/-- protocol.NotificationInitialized. -/
def notificationInitialized : String := "notifications/initialized"

/-- protocol.MethodInitialized. -/
def methodInitialized : String := "initialized"

/-- protocol.MethodToolsList. -/
def methodToolsList : String := "tools/list"

/-- protocol.MethodToolsCall. -/
def methodToolsCall : String := "tools/call"

/-- protocol.MethodResourcesList. -/
def methodResourcesList : String := "resources/list"

/-- protocol.MethodResourcesRead. -/
def methodResourcesRead : String := "resources/read"

/-- protocol.MethodPromptsList. -/
def methodPromptsList : String := "prompts/list"

/-- protocol.MethodPromptsGet. -/
def methodPromptsGet : String := "prompts/get"

/-- JSON-RPC error code InvalidParams. -/
def invalidParamsCode : Int := -32602

/-- JSON-RPC error code InternalError. -/
def internalErrorCode : Int := -32603

/-- handler.ToolHandler: behaviour of a registered tool handler
(`Except` models Go's `(value, error)` pair). -/
structure ToolHandler where
  listTools : Except String ListToolsResponse
  callTool : CallToolRequest → Except String CallToolResponse

/-- handler.ResourceHandler. -/
structure ResourceHandler where
  listResources : Except String ListResourcesResponse
  readResource : ReadResourceRequest → Except String ReadResourceResponse

/-- handler.PromptHandler. -/
structure PromptHandler where
  listPrompts : Except String ListPromptsResponse
  getPrompt : GetPromptRequest → Except String GetPromptResponse

/-- handler.HandlerRegistry: at most one handler per capability category;
`none` means `Has*Handler()` returns false. -/
structure HandlerRegistry where
  toolHandler : Option ToolHandler
  resourceHandler : Option ResourceHandler
  promptHandler : Option PromptHandler

/-- server.Server: the options fields the dispatch code reads, plus the
registry. -/
structure Server where
  name : String
  version : String
  registry : HandlerRegistry

/-- server.handleInitialize: unmarshal the params, then build capabilities
by probing the registry and attach the configured server info. -/
def handleInitialize (s : Server) (params : ParamsDecode) : Except String InitializeResponse :=
  match params.asInitialize with
  | none => .error "invalid initialization parameters"
  | some _ =>
    .ok { protocolVersion := protocolVersionConst
          serverInfo := { name := s.name, version := s.version }
          capabilities :=
            { tools := s.registry.toolHandler.isSome
              resources := s.registry.resourceHandler.isSome
              prompts := s.registry.promptHandler.isSome } }

/-- Control outcome of the method switch in `server.handleRequest`:
either the common tail runs with `(result, err)`, or an invalid-params
error was already sent, or the branch returned without responding. -/
inductive DispatchAction where
  | respond (r : Except String ResultVal)
  | invalidParams (msg : String)
  | noResponse

/-- Method switch of the current `server.handleRequest` (the revision that
treats both `initialized` and `notifications/initialized` as notifications
and answers list methods with empty lists when the handler is absent). -/
def dispatch (s : Server) (req : Request) : DispatchAction :=
  if req.method = methodInitialize then
    .respond ((handleInitialize s req.params).map .initializeR)
  else if req.method = methodInitialized ∨ req.method = notificationInitialized then
    .noResponse
  else if req.method = methodToolsList then
    match s.registry.toolHandler with
    | some h => .respond (h.listTools.map .toolsListR)
    | none => .respond (.ok (.toolsListR { tools := [] }))
  else if req.method = methodToolsCall then
    match s.registry.toolHandler with
    | some h =>
      match req.params.asCallTool with
      | none => .invalidParams "Invalid tool parameters"
      | some tr => .respond ((h.callTool tr).map .toolsCallR)
    | none => .respond (.error "tools not supported")
  else if req.method = methodResourcesList then
    match s.registry.resourceHandler with
    | some h => .respond (h.listResources.map .resourcesListR)
    | none => .respond (.ok (.resourcesListR { resources := [] }))
  else if req.method = methodResourcesRead then
    match s.registry.resourceHandler with
    | some h =>
      match req.params.asReadResource with
      | none => .invalidParams "Invalid resource parameters"
      | some rr => .respond ((h.readResource rr).map .resourcesReadR)
    | none => .respond (.error "resources not supported")
  else if req.method = methodPromptsList then
    match s.registry.promptHandler with
    | some h => .respond (h.listPrompts.map .promptsListR)
    | none => .respond (.ok (.promptsListR { prompts := [] }))
  else if req.method = methodPromptsGet then
    match s.registry.promptHandler with
    | some h =>
      match req.params.asGetPrompt with
      | none => .invalidParams "Invalid prompt parameters"
      | some pr => .respond ((h.getPrompt pr).map .promptsGetR)
    | none => .respond (.error "prompts not supported")
  else
    .respond (.error ("unknown method: " ++ req.method))

/-- server.handleRequest: the list of responses sent over the transport for
one request, in order. `sendResponse` and `sendError` both echo `req.ID`. -/
def handleRequest (s : Server) (req : Request) : List Response :=
  match dispatch s req with
  | .noResponse => []
  | .invalidParams m =>
    [{ id := req.id, result := none, error := some { code := invalidParamsCode, message := m } }]
  | .respond (.error e) =>
    [{ id := req.id, result := none, error := some { code := internalErrorCode, message := e } }]
  | .respond (.ok v) =>
    [{ id := req.id, result := some v, error := none }]

/-- async.OperationStatus. -/
inductive OperationStatus where
  | running
  | completed
  | failed
deriving DecidableEq, Repr

/-- String form of a status (the `OperationStatus` constants are strings in
Go; `Cancel` interpolates one into its error message). -/
def statusString : OperationStatus → String
  | .running => "running"
  | .completed => "completed"
  | .failed => "failed"

/-- async.Operation: one tracked operation record. `completeChClosed` is
whether `CompleteCh` has been closed; `ctxCancelled` is whether the record's
`cancelFunc` has been invoked; `ctxDeadline` is the deadline of the
`context.WithTimeout` context the worker runs under; `hasCancelFunc` is
whether `cancelFunc` is non-nil (true for every record built by Execute). -/
structure Operation where
  id : String
  typ : String
  status : OperationStatus
  result : Option GoValue
  error : Option String
  startTime : Int
  endTime : Int
  completeChClosed : Bool
  ctxCancelled : Bool
  ctxDeadline : Int
  hasCancelFunc : Bool
deriving DecidableEq, Repr

/-- async.ExecutorConfig (durations as integer time units). -/
structure ExecutorConfig where
  defaultTimeout : Int
  maxLifetime : Int
  retentionPeriod : Int
  cleanupInterval : Int
deriving DecidableEq, Repr

/-- async.ExecuteOptions. -/
structure ExecuteOptions where
  typ : String
  timeout : Int
deriving DecidableEq, Repr

/-- Messages the executor formats into the `message` fields, with their
variable parts kept as data (Go renders them with `fmt.Sprintf`). -/
inductive AsyncMessage where
  | inProgressUseContinue (opID : String)
  | requestCancelledContinues
  | stillInProgress (elapsed : Int)
deriving DecidableEq, Repr

/-- async.ExecuteResult (operationId is the empty string when omitted,
mirroring the Go zero value with `omitempty`). -/
structure ExecuteResult where
  status : OperationStatus
  operationId : String
  operationType : String
  result : Option GoValue
  error : Option String
  message : Option AsyncMessage
deriving DecidableEq, Repr

/-- async.ContinueResult. -/
structure ContinueResult where
  status : OperationStatus
  operationId : String
  operationType : String
  result : Option GoValue
  error : Option String
  message : Option AsyncMessage
deriving DecidableEq, Repr

/-- The registry's operation map (`map[string]*Operation`). -/
def Reg := String → Option Operation

/-- Registry with no operations. -/
def emptyReg : Reg := fun _ => none

/-- Store a record under an id (`r.operations[op.ID] = op`; a Go map insert
replaces any existing binding). -/
def updateReg (reg : Reg) (id : String) (op : Operation) : Reg :=
  fun k => if k = id then some op else reg k

/-- The record built at the top of `Execute`: status running, startTime now,
fresh completion channel, cancel handle for a context bounded by
`maxLifetime`. -/
def mkOperation (id typ : String) (now deadline : Int) : Operation :=
  { id := id, typ := typ, status := .running, result := none, error := none
    startTime := now, endTime := 0, completeChClosed := false
    ctxCancelled := false, ctxDeadline := deadline, hasCancelFunc := true }

/-- The worker goroutine's completion update: set endTime, then status and
result (nil error) or status and error (non-nil error); the deferred
`opCancel` and `close(op.CompleteCh)` then run. Pre-existing fields other
than the ones written are left as they were. -/
def workerFinish (op : Operation) (outcome : Except String GoValue) (t : Int) : Operation :=
  let op1 := { op with endTime := t }
  let op2 :=
    match outcome with
    | .error e => { op1 with status := .failed, error := some e }
    | .ok v => { op1 with status := .completed, result := some v }
  { op2 with ctxCancelled := true, completeChClosed := true }

/-- The mutation `Cancel` performs on a running record with a cancel
handle: invoke the handle, set status failed, error "operation cancelled",
endTime. -/
def cancelMutate (op : Operation) (now : Int) : Operation :=
  { op with
    ctxCancelled := true, status := OperationStatus.failed
    error := some "operation cancelled", endTime := now }

/-- The mutation the sweeper performs on a running record older than
`maxLifetime`: cancel its context and force it to failed. -/
def lifetimeMutate (op : Operation) (now : Int) : Operation :=
  { op with
    ctxCancelled := true, status := OperationStatus.failed
    error := some "operation exceeded maximum lifetime", endTime := now }

/-- Events that can mutate one operation record: the worker goroutine
finishing, a `Cancel` call reaching it, or a sweeper pass at a given time. -/
inductive OpEvent where
  | workerDone (outcome : Except String GoValue) (t : Int)
  | cancelOp (t : Int)
  | sweepLifetime (now : Int)

/-- Whether an event is the worker finishing (that goroutine runs once per
operation, so well-formed traces contain at most one such event). -/
def OpEvent.isWorkerDone : OpEvent → Bool
  | .workerDone _ _ => true
  | _ => false

/-- Effect of one event on one record, as the code performs it: `Cancel`
mutates only a running record with a non-nil cancel handle; the sweeper's
lifetime branch mutates only a running record older than `maxLifetime`;
the worker's update is unconditional. -/
def stepOp (cfg : ExecutorConfig) (op : Operation) : OpEvent → Operation
  | .workerDone outcome t => workerFinish op outcome t
  | .cancelOp t =>
    if op.status = .running ∧ op.hasCancelFunc then cancelMutate op t else op
  | .sweepLifetime now =>
    if op.status = .running ∧ now - op.startTime > cfg.maxLifetime then
      lifetimeMutate op now
    else op

/-- A sequence of events applied to one record. -/
def runTrace (cfg : ExecutorConfig) (op : Operation) (es : List OpEvent) : Operation :=
  es.foldl (stepOp cfg) op

/-- Outcome of the three-way select at the end of `Execute`: the completion
channel, the patience timer, or the caller's context wins the race. -/
inductive ExecRace where
  | completedFirst (outcome : Except String GoValue) (t : Int)
  | timeoutFirst
  | ctxCancelledFirst

/-- Timeout resolution at the top of `Execute`: zero means the executor's
default. -/
def resolveTimeout (cfg : ExecutorConfig) (opts : ExecuteOptions) : Int :=
  if opts.timeout = 0 then cfg.defaultTimeout else opts.timeout

/-- async.OperationExecutor.Execute: generate an id, register a running
record whose context is bounded by `maxLifetime`, start the worker, then
race completion against the patience window and the caller's context.
Returns the `ExecuteResult` and the registry contents afterwards. -/
def ExecuteOp (cfg : ExecutorConfig) (reg : Reg) (opID : String) (opts : ExecuteOptions)
    (now : Int) (race : ExecRace) : ExecuteResult × Reg :=
  let op := mkOperation opID opts.typ now (now + cfg.maxLifetime)
  let reg1 := updateReg reg opID op
  match race with
  | .completedFirst outcome t =>
    let op' := workerFinish op outcome t
    let reg2 := updateReg reg1 opID op'
    match op'.error with
    | some e =>
      ({ status := .failed, operationId := "", operationType := ""
         result := none, error := some e, message := none }, reg2)
    | none =>
      ({ status := .completed, operationId := "", operationType := ""
         result := op'.result, error := none, message := none }, reg2)
  | .timeoutFirst =>
    ({ status := .running, operationId := opID, operationType := opts.typ
       result := none, error := none
       message := some (.inProgressUseContinue opID) }, reg1)
  | .ctxCancelledFirst =>
    ({ status := .running, operationId := opID, operationType := opts.typ
       result := none, error := none
       message := some .requestCancelledContinues }, reg1)

/-- Terminal branch shared by `Continue`: a record whose error is non-nil
reports failed with that error text, otherwise completed with the result. -/
def terminalContinue (id : String) (op : Operation) : ContinueResult :=
  match op.error with
  | some e =>
    { status := .failed, operationId := id, operationType := op.typ
      result := none, error := some e, message := none }
  | none =>
    { status := .completed, operationId := id, operationType := op.typ
      result := op.result, error := none, message := none }

/-- Outcome of the three-way select in `Continue` when the record is still
running: the completion signal (carrying the worker's outcome), the wait
timer, or the caller's context wins. -/
inductive ContinueRace where
  | signal (outcome : Except String GoValue) (t : Int)
  | elapsed (now : Int)
  | ctxDone

/-- async.OperationExecutor.Continue: look the id up, return a terminal
record's state immediately, otherwise wait for completion, the wait timer,
or context cancellation. -/
def ContinueOp (reg : Reg) (id : String) (race : ContinueRace) : Except String ContinueResult :=
  match reg id with
  | none => .error ("operation not found: " ++ id)
  | some op =>
    if op.status ≠ .running then .ok (terminalContinue id op)
    else
      match race with
      | .signal outcome t => .ok (terminalContinue id (workerFinish op outcome t))
      | .elapsed now =>
        .ok { status := .running, operationId := id, operationType := op.typ
              result := none, error := none
              message := some (.stillInProgress (now - op.startTime)) }
      | .ctxDone => .error "context canceled"

/-- async.OperationExecutor.Cancel: not-found error if absent, status error
if not running, otherwise (when the cancel handle is non-nil) cancel the
context and force the record to failed. Returns the error (if any) and the
registry contents afterwards. -/
def CancelOp (reg : Reg) (id : String) (now : Int) : Option String × Reg :=
  match reg id with
  | none => (some ("operation not found: " ++ id), reg)
  | some op =>
    if op.status ≠ .running then
      (some ("operation " ++ id ++ " is not running (status: " ++ statusString op.status ++ ")"), reg)
    else if op.hasCancelFunc then
      (none, updateReg reg id (cancelMutate op now))
    else
      (none, reg)

/-- async.OperationRegistry.cleanupExpired, pointwise on the map: delete a
terminal record once `now - endTime > retentionPeriod`; force a running
record older than `maxLifetime` to failed (cancelling its context) without
deleting it. -/
def cleanupExpired (cfg : ExecutorConfig) (now : Int) (reg : Reg) : Reg :=
  fun id =>
    match reg id with
    | none => none
    | some op =>
      if op.status ≠ .running then
        if now - op.endTime > cfg.retentionPeriod then none else some op
      else if now - op.startTime > cfg.maxLifetime then
        some (lifetimeMutate op now)
      else some op

/-- Hex digit characters as produced by `encoding/hex`. -/
def hexDigit (n : Nat) : Char :=
  if n < 10 then Char.ofNat (48 + n) else Char.ofNat (87 + n)

/-- Hex encoding of one byte: two characters. -/
def byteToHexChars (b : Nat) : List Char :=
  [hexDigit (b / 16 % 16), hexDigit (b % 16)]

/-- hex.EncodeToString over a byte slice. -/
def hexEncodeString (bs : List Nat) : String :=
  ⟨bs.flatMap byteToHexChars⟩

/-- Go string slicing `s[:n]`: defined only for `n ≤ len(s)`; out of range
is a runtime panic, modelled as `none`. -/
def goStringSliceTo (s : String) (n : Nat) : Option String :=
  if n ≤ s.length then some ⟨s.data.take n⟩ else none

/-- async.generateID: hex of 4 random bytes on success; on a randomness
failure (`randBytes = none`), hex of the single byte `Unix() & 0xFF` sliced
to 8 characters. `none` is the runtime panic of an out-of-range slice. -/
def generateID (randBytes : Option (List Nat)) (unixTime : Int) : Option String :=
  match randBytes with
  | none => goStringSliceTo (hexEncodeString [(unixTime.emod 256).toNat]) 8
  | some bs => some (hexEncodeString bs)

/-- transport.StdioTransport's shutdown state: the closed flag and how many
times each channel has been closed (a second `close` would panic, so the
counters must never pass 1). -/
structure TransportState where
  isClosed : Bool
  doneCloseCount : Nat
  requestsCloseCount : Nat
  errorsCloseCount : Nat
deriving DecidableEq, Repr

/-- transport.NewStdioTransport: open, nothing closed yet. -/
def newStdioTransport : TransportState :=
  { isClosed := false, doneCloseCount := 0, requestsCloseCount := 0, errorsCloseCount := 0 }

/-- transport.StdioTransport.Stop: under the write lock, close the three
channels and set the flag only if not already closed. -/
def stopTransport (t : TransportState) : TransportState :=
  if t.isClosed then t
  else
    { isClosed := true, doneCloseCount := t.doneCloseCount + 1
      requestsCloseCount := t.requestsCloseCount + 1
      errorsCloseCount := t.errorsCloseCount + 1 }

/-- transport.StdioTransport.Send: refuse with "transport is closed" after
Stop, otherwise encode and write the response (returned as the emitted
message). -/
def sendTransport (t : TransportState) (resp : Response) : Except String Response :=
  if t.isClosed then .error "transport is closed" else .ok resp

/-- `n` successive calls to Stop. -/
def stopN : Nat → TransportState → TransportState
  | 0, t => t
  | n + 1, t => stopN n (stopTransport t)

/-- One attempt of the streaming decoder in the read loop: end of input, a
decode failure, or a successfully decoded request. -/
inductive DecodeOutcome where
  | eofIn
  | failDecode (msg : String)
  | okDecode (req : Request)

/-- Observable events of the read loop: an error delivered on the error
channel, an error logged because the channel's consumer was not ready
(the select's default arm), or a request published on the request channel. -/
inductive IOEvent where
  | errSent (msg : String)
  | errLogged (msg : String)
  | published (req : Request)
deriving DecidableEq, Repr

/-- Non-blocking error emission: deliver on the error channel if its
consumer is ready, otherwise fall back to logging. -/
def emitErr (ready : Bool) (msg : String) : IOEvent :=
  if ready then .errSent msg else .errLogged msg

/-- transport.StdioTransport.readLoop on a running transport: each input is
a decode outcome paired with whether the error channel's consumer is ready
at that step. EOF ends the loop; a decode failure emits one decode error
and continues; a wrong `jsonrpc` version emits one validation error and
drops the message; otherwise the request is published. -/
def readLoop : List (DecodeOutcome × Bool) → List IOEvent
  | [] => []
  | (o, ready) :: rest =>
    match o with
    | .eofIn => []
    | .failDecode m => emitErr ready ("decode error: " ++ m) :: readLoop rest
    | .okDecode req =>
      if req.jsonrpc ≠ "2.0" then
        emitErr ready ("invalid JSON-RPC version: " ++ req.jsonrpc) :: readLoop rest
      else
        .published req :: readLoop rest

/-! Concrete fixtures used by counterexamples and witnesses. -/

/-- A server with no handlers registered. -/
def emptyServer : Server :=
  { name := "srv", version := "1.0"
    registry := { toolHandler := none, resourceHandler := none, promptHandler := none } }

/-- Raw params that decode as nothing. -/
def noParams : ParamsDecode :=
  { asInitialize := none, asCallTool := none, asReadResource := none, asGetPrompt := none }

/-- A tools/list request that carries no id (Go decodes a missing id to nil). -/
def idlessToolsListReq : Request :=
  { jsonrpc := "2.0", id := .null, method := "tools/list", params := noParams }

/-- A small executor configuration. -/
def cfg0 : ExecutorConfig :=
  { defaultTimeout := 15, maxLifetime := 600, retentionPeriod := 300, cleanupInterval := 60 }

/-- A freshly registered running operation. -/
def opFresh : Operation := mkOperation "a1b2c3d4" "imagegen" 0 600

/-! Helper lemmas about the operation state machine. -/

/-- The worker's completion update never reports running. -/
theorem workerFinish_status_ne_running (op : Operation) (out : Except String GoValue) (t : Int) :
    (workerFinish op out t).status ≠ .running := by
  cases out <;> simp [workerFinish]

/-- No event moves a record back to running. -/
theorem stepOp_preserves_not_running (cfg : ExecutorConfig) {op : Operation}
    (h : op.status ≠ .running) (e : OpEvent) : (stepOp cfg op e).status ≠ .running := by
  cases e with
  | workerDone out t => exact workerFinish_status_ne_running op out t
  | cancelOp t =>
    simp only [stepOp]
    split
    · next hc => exact absurd hc.1 h
    · exact h
  | sweepLifetime now =>
    simp only [stepOp]
    split
    · next hc => exact absurd hc.1 h
    · exact h

/-- No event clears the completion signal once closed. -/
theorem stepOp_preserves_signal (cfg : ExecutorConfig) {op : Operation}
    (h : op.completeChClosed = true) (e : OpEvent) :
    (stepOp cfg op e).completeChClosed = true := by
  cases e with
  | workerDone out t => cases out <;> simp [stepOp, workerFinish]
  | cancelOp t =>
    simp only [stepOp]
    split
    · simp [cancelMutate, h]
    · exact h
  | sweepLifetime now =>
    simp only [stepOp]
    split
    · simp [lifetimeMutate, h]
    · exact h

/-- Cancel and sweeper events leave a record that is no longer running
untouched. -/
theorem stepOp_terminal_fixed (cfg : ExecutorConfig) {op : Operation}
    (h : op.status ≠ .running) {e : OpEvent} (he : e.isWorkerDone = false) :
    stepOp cfg op e = op := by
  cases e with
  | workerDone out t => simp [OpEvent.isWorkerDone] at he
  | cancelOp t =>
    simp only [stepOp]
    rw [if_neg]
    intro hc
    exact h hc.1
  | sweepLifetime now =>
    simp only [stepOp]
    rw [if_neg]
    intro hc
    exact h hc.1

/-- A whole trace of cancel and sweeper events leaves a record that is no
longer running untouched. -/
theorem runTrace_terminal_fixed (cfg : ExecutorConfig) {op : Operation}
    (h : op.status ≠ .running) {es : List OpEvent}
    (hes : ∀ e ∈ es, e.isWorkerDone = false) : runTrace cfg op es = op := by
  induction es with
  | nil => rfl
  | cons e rest ih =>
    have h1 : stepOp cfg op e = op := stepOp_terminal_fixed cfg h (hes e (by simp))
    show runTrace cfg (stepOp cfg op e) rest = op
    rw [h1]
    exact ih fun e' he' => hes e' (by simp [he'])

/-- Statuses never return to running along any trace. -/
theorem runTrace_not_running (cfg : ExecutorConfig) {op : Operation}
    (h : op.status ≠ .running) (es : List OpEvent) :
    (runTrace cfg op es).status ≠ .running := by
  induction es generalizing op with
  | nil => exact h
  | cons e rest ih =>
    show (runTrace cfg (stepOp cfg op e) rest).status ≠ .running
    exact ih (stepOp_preserves_not_running cfg h e)

/-- The completion signal stays closed along any trace. -/
theorem runTrace_signal_stays (cfg : ExecutorConfig) {op : Operation}
    (h : op.completeChClosed = true) (es : List OpEvent) :
    (runTrace cfg op es).completeChClosed = true := by
  induction es generalizing op with
  | nil => exact h
  | cons e rest ih =>
    show (runTrace cfg (stepOp cfg op e) rest).completeChClosed = true
    exact ih (stepOp_preserves_signal cfg h e)

/-! Claim theorems. -/

/-- C10 evidence: on the randomness-failure path, `generateID` hex-encodes a
single byte of the current time (two characters) and then slices the result
to eight characters, which is out of range for every possible time — the
fallback can never produce an id at all, let alone an 8-character one. -/
theorem generateID_fallback_never_yields_id (t : Int) : generateID none t = none := by
  unfold generateID goStringSliceTo hexEncodeString byteToHexChars
  simp [String.length]

/-- C8: transport Stop is idempotent — after any positive number of Stop
calls each of the done, request and error channels has been closed exactly
once, and Send refuses with the transport-closed error. -/
theorem stop_idempotent_send_fails (n : Nat) (resp : Response) (h : 1 ≤ n) :
    (stopN n newStdioTransport).isClosed = true ∧
    (stopN n newStdioTransport).doneCloseCount = 1 ∧
    (stopN n newStdioTransport).requestsCloseCount = 1 ∧
    (stopN n newStdioTransport).errorsCloseCount = 1 ∧
    sendTransport (stopN n newStdioTransport) resp = .error "transport is closed" := by
  have key : ∀ m : Nat, ∀ t : TransportState, t.isClosed = true → stopN m t = t := by
    intro m
    induction m with
    | zero => intro t _; rfl
    | succ k ih =>
      intro t ht
      show stopN k (stopTransport t) = t
      rw [show stopTransport t = t by simp [stopTransport, ht]]
      exact ih t ht
  cases n with
  | zero => exact absurd h (by decide)
  | succ m =>
    have h1 : stopN (m + 1) newStdioTransport =
        { isClosed := true, doneCloseCount := 1, requestsCloseCount := 1, errorsCloseCount := 1 } := by
      show stopN m (stopTransport newStdioTransport) = _
      rw [show stopTransport newStdioTransport =
          ({ isClosed := true, doneCloseCount := 1, requestsCloseCount := 1
             errorsCloseCount := 1 } : TransportState) from rfl]
      exact key m _ rfl
    rw [h1]
    exact ⟨rfl, rfl, rfl, rfl, rfl⟩

/-- C8 witness: two Stop calls close every channel exactly once and a
subsequent Send fails with the transport-closed error. -/
theorem stop_idempotent_send_fails_witness :
    (stopN 2 newStdioTransport).isClosed = true ∧
    (stopN 2 newStdioTransport).doneCloseCount = 1 ∧
    (stopN 2 newStdioTransport).requestsCloseCount = 1 ∧
    (stopN 2 newStdioTransport).errorsCloseCount = 1 ∧
    sendTransport (stopN 2 newStdioTransport)
      { id := .null, result := none, error := none } = .error "transport is closed" :=
  stop_idempotent_send_fails 2 { id := .null, result := none, error := none } (by decide)

/-- C9: a message that fails to decode makes the read loop emit exactly one
decode error — on the error channel when its consumer is ready, otherwise to
the log — and the loop continues: a well-formed message on the next line is
still published on the request channel, with the rest of the stream
processed as usual. -/
theorem decode_error_resync (m : String) (r₁ r₂ : Bool) (good : Request)
    (rest : List (DecodeOutcome × Bool)) (h : good.jsonrpc = "2.0") :
    readLoop ((.failDecode m, r₁) :: (.okDecode good, r₂) :: rest) =
      emitErr r₁ ("decode error: " ++ m) :: .published good :: readLoop rest ∧
    emitErr true ("decode error: " ++ m) = .errSent ("decode error: " ++ m) ∧
    emitErr false ("decode error: " ++ m) = .errLogged ("decode error: " ++ m) := by
  refine ⟨?_, rfl, rfl⟩
  simp [readLoop, h]

/-- C9 witness: a malformed line followed by a well-formed request. -/
theorem decode_error_resync_witness :
    readLoop ((.failDecode "bad json", true) :: (.okDecode idlessToolsListReq, true) :: []) =
      emitErr true ("decode error: " ++ "bad json") :: .published idlessToolsListReq :: readLoop [] ∧
    emitErr true ("decode error: " ++ "bad json") = .errSent ("decode error: " ++ "bad json") ∧
    emitErr false ("decode error: " ++ "bad json") = .errLogged ("decode error: " ++ "bad json") :=
  decode_error_resync "bad json" true true idlessToolsListReq [] (by decide)

/-- C7: on a sweeper pass at time `now`, a terminal record is deleted
exactly when `now - endTime` exceeds the retention period, and a running
record older than `maxLifetime` is kept but forced to failed with the
lifetime-exceeded error, its end time set and its context cancelled. -/
theorem sweeper_retention_and_lifetime (cfg : ExecutorConfig) (now : Int) (reg : Reg)
    (id : String) (op : Operation) (h : reg id = some op) :
    (op.status ≠ .running →
      (cleanupExpired cfg now reg id = none ↔ now - op.endTime > cfg.retentionPeriod)) ∧
    (op.status = .running → now - op.startTime > cfg.maxLifetime →
      cleanupExpired cfg now reg id = some (lifetimeMutate op now) ∧
      (lifetimeMutate op now).status = .failed ∧
      (lifetimeMutate op now).error = some "operation exceeded maximum lifetime" ∧
      (lifetimeMutate op now).endTime = now ∧
      (lifetimeMutate op now).ctxCancelled = true) ∧
    (op.status = .running → ¬ now - op.startTime > cfg.maxLifetime →
      cleanupExpired cfg now reg id = some op) := by
  refine ⟨?_, ?_, ?_⟩
  · intro hterm
    simp only [cleanupExpired, h, if_pos hterm]
    constructor
    · intro hdel
      by_contra hret
      rw [if_neg hret] at hdel
      exact Option.noConfusion hdel
    · intro hret
      rw [if_pos hret]
  · intro hrun hage
    refine ⟨?_, rfl, rfl, rfl, rfl⟩
    have hterm : ¬ op.status ≠ .running := by simp [hrun]
    simp only [cleanupExpired, h, if_neg hterm, if_pos hage]
  · intro hrun hage
    have hterm : ¬ op.status ≠ .running := by simp [hrun]
    simp only [cleanupExpired, h, if_neg hterm, if_neg hage]

/-- C7 witness: a sweeper pass at time 601 on a registry holding one running
record started at 0 under a 600-unit lifetime forces it to failed without
deleting it. -/
theorem sweeper_retention_and_lifetime_witness :
    cleanupExpired cfg0 601 (updateReg emptyReg "a1b2c3d4" opFresh) "a1b2c3d4" =
      some (lifetimeMutate opFresh 601) :=
  ((sweeper_retention_and_lifetime cfg0 601 (updateReg emptyReg "a1b2c3d4" opFresh)
    "a1b2c3d4" opFresh (by decide)).2.1 (by decide) (by decide)).1

/-- C6: Cancel returns the not-found error for an absent id; returns a
status error and leaves the registry unchanged when the record is not
running; and on a running record with a cancel handle it reports no error,
cancels the context, and stores the record as failed with error
"operation cancelled" and its end time set. -/
theorem cancel_spec (reg : Reg) (id : String) (now : Int) :
    (reg id = none → CancelOp reg id now = (some ("operation not found: " ++ id), reg)) ∧
    (∀ op, reg id = some op → op.status ≠ .running →
      CancelOp reg id now =
        (some ("operation " ++ id ++ " is not running (status: " ++
          statusString op.status ++ ")"), reg)) ∧
    (∀ op, reg id = some op → op.status = .running → op.hasCancelFunc = true →
      (CancelOp reg id now).1 = none ∧
      (CancelOp reg id now).2 id = some (cancelMutate op now) ∧
      (cancelMutate op now).status = .failed ∧
      (cancelMutate op now).error = some "operation cancelled" ∧
      (cancelMutate op now).endTime = now ∧
      (cancelMutate op now).ctxCancelled = true) := by
  refine ⟨?_, ?_, ?_⟩
  · intro h
    simp [CancelOp, h]
  · intro op h hterm
    simp [CancelOp, h, if_pos hterm]
  · intro op h hrun hcf
    have hterm : ¬ op.status ≠ .running := by simp [hrun]
    refine ⟨?_, ?_, rfl, rfl, rfl, rfl⟩
    · simp [CancelOp, h, if_neg hterm, hcf]
    · simp [CancelOp, h, if_neg hterm, hcf, updateReg]

/-- C6 witness: cancelling a fresh running operation records the
cancellation, and cancelling it a second time yields the status error with
the registry unchanged. -/
theorem cancel_spec_witness :
    (CancelOp (updateReg emptyReg "a1b2c3d4" opFresh) "a1b2c3d4" 5).1 = none ∧
    (CancelOp (updateReg emptyReg "a1b2c3d4" opFresh) "a1b2c3d4" 5).2 "a1b2c3d4" =
      some (cancelMutate opFresh 5) :=
  ⟨((cancel_spec (updateReg emptyReg "a1b2c3d4" opFresh) "a1b2c3d4" 5).2.2 opFresh
      (by decide) (by decide) (by decide)).1,
   ((cancel_spec (updateReg emptyReg "a1b2c3d4" opFresh) "a1b2c3d4" 5).2.2 opFresh
      (by decide) (by decide) (by decide)).2.1⟩

/-- C2: when the worker wins the patience race, Execute returns completed
with the result (nil worker error) or failed with the error text, and no
operation id; when the patience timer or the caller's context wins, Execute
returns running with the fresh id and the operation type, and the registry
still holds the record running, uncancelled, on its own context whose
deadline is start time plus `maxLifetime`. -/
theorem execute_spec (cfg : ExecutorConfig) (reg : Reg) (opID : String)
    (opts : ExecuteOptions) (now : Int) :
    (∀ v t, (ExecuteOp cfg reg opID opts now (.completedFirst (.ok v) t)).1 =
      { status := .completed, operationId := "", operationType := ""
        result := some v, error := none, message := none }) ∧
    (∀ e t, (ExecuteOp cfg reg opID opts now (.completedFirst (.error e) t)).1 =
      { status := .failed, operationId := "", operationType := ""
        result := none, error := some e, message := none }) ∧
    ((ExecuteOp cfg reg opID opts now .timeoutFirst).1 =
      { status := .running, operationId := opID, operationType := opts.typ
        result := none, error := none, message := some (.inProgressUseContinue opID) }) ∧
    ((ExecuteOp cfg reg opID opts now .ctxCancelledFirst).1 =
      { status := .running, operationId := opID, operationType := opts.typ
        result := none, error := none, message := some .requestCancelledContinues }) ∧
    ((ExecuteOp cfg reg opID opts now .timeoutFirst).2 opID =
      some (mkOperation opID opts.typ now (now + cfg.maxLifetime))) ∧
    ((ExecuteOp cfg reg opID opts now .ctxCancelledFirst).2 opID =
      some (mkOperation opID opts.typ now (now + cfg.maxLifetime))) ∧
    ((mkOperation opID opts.typ now (now + cfg.maxLifetime)).status = .running ∧
     (mkOperation opID opts.typ now (now + cfg.maxLifetime)).ctxCancelled = false ∧
     (mkOperation opID opts.typ now (now + cfg.maxLifetime)).ctxDeadline = now + cfg.maxLifetime) := by
  refine ⟨fun v t => rfl, fun e t => rfl, rfl, rfl, ?_, ?_, rfl, rfl, rfl⟩
  · simp [ExecuteOp, updateReg]
  · simp [ExecuteOp, updateReg]

/-- C4: a tools/list, resources/list or prompts/list request received while
no handler is registered for that category is answered with a successful
response carrying the empty list, not an error. -/
theorem list_methods_empty_when_no_handler (s : Server) (jr : String) (id : ReqId)
    (pd : ParamsDecode) :
    (s.registry.toolHandler = none →
      handleRequest s { jsonrpc := jr, id := id, method := methodToolsList, params := pd } =
        [{ id := id, result := some (.toolsListR { tools := [] }), error := none }]) ∧
    (s.registry.resourceHandler = none →
      handleRequest s { jsonrpc := jr, id := id, method := methodResourcesList, params := pd } =
        [{ id := id, result := some (.resourcesListR { resources := [] }), error := none }]) ∧
    (s.registry.promptHandler = none →
      handleRequest s { jsonrpc := jr, id := id, method := methodPromptsList, params := pd } =
        [{ id := id, result := some (.promptsListR { prompts := [] }), error := none }]) := by
  refine ⟨?_, ?_, ?_⟩
  all_goals
    intro h
    simp [handleRequest, dispatch, h, methodInitialize, methodInitialized,
      notificationInitialized, methodToolsList, methodToolsCall, methodResourcesList,
      methodResourcesRead, methodPromptsList, methodPromptsGet]

/-- C4 witness: tools/list on a server with no handlers yields the empty
tool list as a successful response. -/
theorem list_methods_empty_when_no_handler_witness :
    handleRequest emptyServer
      { jsonrpc := "2.0", id := .num 2, method := methodToolsList, params := noParams } =
      [{ id := .num 2, result := some (.toolsListR { tools := [] }), error := none }] :=
  (list_methods_empty_when_no_handler emptyServer "2.0" (.num 2) noParams).1 rfl

/-- C1 counterexample: a request without an id (Go decodes the missing id
to nil) whose method is tools/list is not treated as a notification — the
dispatch core still sends one response (whose id is null), whereas the
claim says no response is sent for any request without an id. -/
theorem idless_request_gets_response :
    handleRequest emptyServer idlessToolsListReq =
      [{ id := .null, result := some (.toolsListR { tools := [] }), error := none }] ∧
    handleRequest emptyServer idlessToolsListReq ≠ [] :=
  ⟨by decide, by decide⟩

/-- Only the two initialized spellings make the method dispatch return
without responding. -/
theorem dispatch_eq_noResponse {s : Server} {req : Request}
    (h : dispatch s req = .noResponse) :
    req.method = methodInitialized ∨ req.method = notificationInitialized := by
  unfold dispatch at h
  split_ifs at h with h1 h2 h3 h4 h5 h6 h7 h8
  all_goals first
    | exact h2
    | ((repeat' split at h) <;> exact absurd h (by simp))

/-- C1 amended: the dispatch core sends exactly one response — with an id
equal to the request's id, null included — for every request whose method
is not one of the two initialized spellings, and no response for those two;
the presence of an id is never consulted. -/
theorem request_response_discipline (s : Server) (req : Request) :
    (handleRequest s req).length =
      (if req.method = methodInitialized ∨ req.method = notificationInitialized
       then 0 else 1) ∧
    ∀ resp ∈ handleRequest s req, resp.id = req.id := by
  constructor
  · by_cases hcond : req.method = methodInitialized ∨ req.method = notificationInitialized
    · rw [if_pos hcond]
      have hd : dispatch s req = .noResponse := by
        unfold dispatch
        rcases hcond with he | he
        · rw [he, if_neg (by decide), if_pos (by decide)]
        · rw [he, if_neg (by decide), if_pos (by decide)]
      simp [handleRequest, hd]
    · rw [if_neg hcond]
      cases hd : dispatch s req with
      | noResponse => exact absurd (dispatch_eq_noResponse hd) hcond
      | invalidParams m => simp [handleRequest, hd]
      | respond r => cases r <;> simp [handleRequest, hd]
  · intro resp hmem
    cases hd : dispatch s req with
    | noResponse => simp [handleRequest, hd] at hmem
    | invalidParams m =>
      simp [handleRequest, hd] at hmem
      subst hmem
      rfl
    | respond r =>
      cases r with
      | error e =>
        simp [handleRequest, hd] at hmem
        subst hmem
        rfl
      | ok v =>
        simp [handleRequest, hd] at hmem
        subst hmem
        rfl

/-- C1 amended witness: a tools/list request with id 2 receives exactly one
response and that response echoes id 2. -/
theorem request_response_discipline_witness :
    (handleRequest emptyServer
      { jsonrpc := "2.0", id := .num 2, method := methodToolsList, params := noParams }).length = 1 ∧
    ∀ resp ∈ handleRequest emptyServer
      { jsonrpc := "2.0", id := .num 2, method := methodToolsList, params := noParams },
      resp.id = ReqId.num 2 := by
  have h := request_response_discipline emptyServer
    { jsonrpc := "2.0", id := .num 2, method := methodToolsList, params := noParams }
  refine ⟨?_, fun resp hm => h.2 resp hm⟩
  rw [h.1, if_neg (by decide)]

/-- C3 counterexample: a Cancel that lands while the worker is still running
moves the record's status out of running to failed while the completion
signal has not yet fired, and the worker's own completion then overwrites
the terminal status with completed — the record leaves a terminal status,
and the signal does not fire at the moment the status leaves running. -/
theorem cancel_then_worker_overwrites :
    (stepOp cfg0 opFresh (.cancelOp 5)).status = .failed ∧
    (stepOp cfg0 opFresh (.cancelOp 5)).completeChClosed = false ∧
    (stepOp cfg0 (stepOp cfg0 opFresh (.cancelOp 5))
      (.workerDone (.ok (.str "v")) 7)).status = .completed :=
  ⟨by decide, by decide, by decide⟩

/-- C3 amended: a record's status never returns to running once it has left
it, and the completion signal is never cleared; the worker's finish fires
the signal, populates the result (nil error) or the error (non-nil error)
with the matching terminal status, and afterwards no Cancel or sweeper
event changes the record; a fresh record starts running with the signal
unfired. (A Cancel or lifetime sweep that lands before the worker finishes
still moves the status out of running ahead of the signal, and the worker's
later finish overwrites that terminal state.) -/
theorem op_record_state_machine (cfg : ExecutorConfig) (op : Operation)
    (es : List OpEvent) (out : Except String GoValue) (t : Int) :
    (op.status ≠ .running → (runTrace cfg op es).status ≠ .running) ∧
    (op.completeChClosed = true → (runTrace cfg op es).completeChClosed = true) ∧
    ((∀ e ∈ es, e.isWorkerDone = false) →
      runTrace cfg (workerFinish op out t) es = workerFinish op out t) ∧
    (workerFinish op out t).completeChClosed = true ∧
    (workerFinish op out t).status ≠ .running ∧
    (∀ v, (workerFinish op (.ok v) t).status = .completed ∧
      (workerFinish op (.ok v) t).result = some v) ∧
    (∀ e, (workerFinish op (.error e) t).status = .failed ∧
      (workerFinish op (.error e) t).error = some e) ∧
    ((mkOperation op.id op.typ t t).status = .running ∧
     (mkOperation op.id op.typ t t).completeChClosed = false) :=
  ⟨fun h => runTrace_not_running cfg h es,
   fun h => runTrace_signal_stays cfg h es,
   fun hes => runTrace_terminal_fixed cfg (workerFinish_status_ne_running op out t) hes,
   rfl,
   workerFinish_status_ne_running op out t,
   fun _ => ⟨rfl, rfl⟩,
   fun _ => ⟨rfl, rfl⟩,
   ⟨rfl, rfl⟩⟩

/-- C3 amended witness: after the worker finishes, a Cancel and a sweeper
pass leave the record exactly as the worker wrote it. -/
theorem op_record_state_machine_witness :
    runTrace cfg0 (workerFinish opFresh (.ok (.str "img")) 9)
      [.cancelOp 11, .sweepLifetime 700] = workerFinish opFresh (.ok (.str "img")) 9 :=
  (op_record_state_machine cfg0 opFresh [.cancelOp 11, .sweepLifetime 700]
    (.ok (.str "img")) 9).2.2.1 (by decide)

/-- The record stored by a Cancel at time 5 of the fresh running operation. -/
def opCancelled5 : Operation := cancelMutate opFresh 5

/-- Registry contents after Execute registered the fresh operation and a
Cancel landed at time 5 (worker still running). -/
def regAfterCancel : Reg :=
  (CancelOp (updateReg emptyReg "a1b2c3d4" opFresh) "a1b2c3d4" 5).2

/-- Registry contents after the worker then returned the error "disk full"
at time 7, overwriting the cancelled record. -/
def regAfterWorker : Reg :=
  updateReg regAfterCancel "a1b2c3d4" (workerFinish opCancelled5 (.error "disk full") 7)

/-- C5 counterexample: with the operation terminal after a Cancel, Continue
returns failed with "operation cancelled"; after the worker's later return
the same id yields failed with "disk full" — a subsequent Continue on a
terminal operation does not return the same terminal state. -/
theorem continue_terminal_state_changes :
    ContinueOp regAfterCancel "a1b2c3d4" .ctxDone =
      .ok (terminalContinue "a1b2c3d4" opCancelled5) ∧
    (terminalContinue "a1b2c3d4" opCancelled5).status = .failed ∧
    (terminalContinue "a1b2c3d4" opCancelled5).error = some "operation cancelled" ∧
    ContinueOp regAfterWorker "a1b2c3d4" .ctxDone =
      .ok (terminalContinue "a1b2c3d4" (workerFinish opCancelled5 (.error "disk full") 7)) ∧
    (terminalContinue "a1b2c3d4" (workerFinish opCancelled5 (.error "disk full") 7)).error =
      some "disk full" ∧
    terminalContinue "a1b2c3d4" opCancelled5 ≠
      terminalContinue "a1b2c3d4" (workerFinish opCancelled5 (.error "disk full") 7) :=
  ⟨by decide, by decide, by decide, by decide, by decide, by decide⟩

/-- C5 amended: Continue fails with the not-found error for an absent id;
for a terminal record it immediately returns the state derived from the
record (failed with the stored error if one is set, otherwise completed
with the result); once the completion signal has fired, later Cancel and
sweeper events leave the record unchanged, so every subsequent Continue on
a retained record returns that same terminal state; and a record still
running when the wait time elapses yields status running with a message
carrying the elapsed time. (Before the signal fires, a Cancel can make the
record terminal and the worker's later return can change the reported
state, as the counterexample shows.) -/
theorem continue_spec (cfg : ExecutorConfig) (reg : Reg) (id : String) (race : ContinueRace) :
    (reg id = none → ContinueOp reg id race = .error ("operation not found: " ++ id)) ∧
    (∀ op, reg id = some op → op.status ≠ .running →
      ContinueOp reg id race = .ok (terminalContinue id op)) ∧
    (∀ op, reg id = some op → op.status ≠ .running → op.completeChClosed = true →
      ∀ es, (∀ e ∈ es, e.isWorkerDone = false) →
        ContinueOp (updateReg reg id (runTrace cfg op es)) id race =
          .ok (terminalContinue id op)) ∧
    (∀ op now, reg id = some op → op.status = .running →
      ContinueOp reg id (.elapsed now) =
        .ok { status := .running, operationId := id, operationType := op.typ
              result := none, error := none
              message := some (.stillInProgress (now - op.startTime)) }) := by
  refine ⟨?_, ?_, ?_, ?_⟩
  · intro h
    simp [ContinueOp, h]
  · intro op h hterm
    simp [ContinueOp, h, if_pos hterm]
  · intro op h hterm hsig es hes
    rw [runTrace_terminal_fixed cfg hterm hes]
    have hup : updateReg reg id op id = some op := by simp [updateReg]
    simp [ContinueOp, hup, if_pos hterm]
  · intro op now h hrun
    have hterm : ¬ op.status ≠ .running := by simp [hrun]
    simp [ContinueOp, h, if_neg hterm]

/-- C5 amended witness: an unknown id fails with the not-found error, and a
running record probed with a 42-unit wait reports running with the elapsed
time. -/
theorem continue_spec_witness :
    ContinueOp emptyReg "zzzz" .ctxDone = .error ("operation not found: " ++ "zzzz") ∧
    ContinueOp (updateReg emptyReg "a1b2c3d4" opFresh) "a1b2c3d4" (.elapsed 42) =
      .ok { status := .running, operationId := "a1b2c3d4", operationType := "imagegen"
            result := none, error := none, message := some (.stillInProgress (42 - 0)) } :=
  ⟨(continue_spec cfg0 emptyReg "zzzz" .ctxDone).1 rfl,
   (continue_spec cfg0 (updateReg emptyReg "a1b2c3d4" opFresh) "a1b2c3d4" .ctxDone).2.2.2
     opFresh 42 (by decide) (by decide)⟩

end Mcp
